import Mathlib

/-!
Verification development for the request dispatcher in src/handle-request.js
(alexia). The JavaScript module is shallowly embedded: JS objects become Lean
structures, absent or undefined fields become Option, JS object mutation is
modelled by explicit state passing (functions return the final state of the
objects they may write to), and a synchronous throw becomes an Except error.
The dual sync/async handler calling convention is modelled by a Handler record
carrying its declared arity together with its behaviour on each convention:
runSync models the return value of handler(slots, attrs, data), runAsync models
the single value the handler eventually passes to its fourth-argument
completion callback.
-/

set_option maxRecDepth 4000

namespace Alexia

/-- Slot record as it arrives on the wire: one entry of the ordered sequence
request.intent.slots, each an object with name and value fields. -/
structure Slot where
  name : String
  value : String
deriving Repr, DecidableEq

/-- Normalized slot view produced inside callHandler: a key to value mapping
built by writing result[value.name] = value.value over the raw sequence. JS
object key order is first-insertion order with in-place overwrite, modelled by
an association list updated by setKey. -/
abbrev SlotsMap := List (String × String)

/-- Session attributes object. The previousIntent property is the only one the
pipeline reads and writes; none models the property being absent. Any other
properties the application stores are carried opaquely in other. -/
structure Attrs where
  previousIntent : Option String
  other : List (String × String)
deriving Repr, DecidableEq

/-- Card object from the response options; type is defaulted to Simple by
createCardObject when absent. -/
structure Card where
  type : Option String
  title : Option String
  content : Option String
deriving Repr, DecidableEq

/-- Structured response options a handler can produce (the object form). The
field holding options.end is written endSession because end is a Lean keyword. -/
structure RespOptions where
  text : Option String
  ssml : Bool
  attrs : Option Attrs
  endSession : Option Bool
  reprompt : Option String
  card : Option Card
deriving Repr, DecidableEq

/-- Value a handler hands to the pipeline: either a plain string shorthand or a
structured options object (createResponse converts the former to the latter). -/
inductive OptionsVal where
  | str (s : String)
  | obj (o : RespOptions)
deriving Repr, DecidableEq

/-- Output speech object: PlainText carries text, SSML carries ssml. -/
structure OutputSpeech where
  type : String
  text : Option String
  ssml : Option String
deriving Repr, DecidableEq

/-- Synthesized protocol response. reprompt holds the outputSpeech object
nested under response.reprompt. version is Option because the source reads
app.options.version, which may be undefined, when app.options is present. -/
structure Response where
  version : Option String
  sessionAttributes : Attrs
  outputSpeech : OutputSpeech
  shouldEndSession : Bool
  reprompt : Option OutputSpeech
  card : Option Card
deriving Repr, DecidableEq

/-- Incoming session object: new flag, optional attributes object, and
application.applicationId. -/
structure Session where
  isNew : Bool
  attributes : Option Attrs
  applicationId : String
deriving Repr, DecidableEq

/-- Intent part of an IntentRequest: name plus the optional raw slot sequence. -/
structure IntentReq where
  name : String
  slots : Option (List Slot)
deriving Repr, DecidableEq

/-- Request JSON handed to the dispatcher. requestType is data.request.type, a
plain string on the wire; intent is present only for intent requests. -/
structure RequestData where
  session : Session
  requestType : String
  intent : Option IntentReq
deriving Repr, DecidableEq

/-- Application or fallback handler. arity models the declared parameter count
(handler.length). runSync is the value returned by invoking the handler as
handler(slots, attrs, data); runAsync is the value the handler passes, exactly
once, to the completion callback it receives as fourth argument when invoked
as handler(slots, attrs, data, optionsReady). -/
structure Handler where
  arity : Nat
  runSync : SlotsMap → Attrs → RequestData → OptionsVal
  runAsync : SlotsMap → Attrs → RequestData → OptionsVal

/-- Intent record registered in app.intents. -/
structure Intent where
  name : String
  handler : Handler

/-- Action record: one declared transition edge. The field written fromName is
the source property named from (a Lean keyword); cond is the optional property
named if (also a Lean keyword), a predicate applied to the RAW slot sequence
and the attributes. fail is the optional fallback handler. -/
structure Action where
  fromName : String
  toName : String
  cond : Option (Option (List Slot) → Attrs → Bool)
  fail : Option Handler

/-- Application options: ids whitelist and protocol version, each optional. -/
structure AppOptions where
  ids : Option (List String)
  version : Option String
deriving Repr, DecidableEq

/-- Application object: intents mapping (association list keyed by intent
name), ordered action sequence, optional options. -/
structure App where
  intents : List (String × Intent)
  actions : List Action
  options : Option AppOptions

/-- Handlers bundle supplied by the dispatcher caller. -/
structure Handlers where
  onStart : Handler
  onEnd : Handler
  defaultActionFail : Handler

/-- Write key k to value v in an association list the way a JS object property
write does: overwrite in place if the key exists, else append. -/
def setKey (m : List (String × String)) (k v : String) : List (String × String) :=
  match m with
  | [] => [(k, v)]
  | (k1, v1) :: rest => if k1 == k then (k, v) :: rest else (k1, v1) :: setKey rest k v

/-- Transform the raw slot sequence into the simple key:value schema, as the
lodash transform call at the top of callHandler does; a nil slots value yields
the empty accumulator. -/
def transformSlots : Option (List Slot) → SlotsMap
  | none => []
  | some ss => ss.foldl (fun acc s => setKey acc s.name s.value) []

/-- Creates the output speech object used for the text response or reprompt. -/
def createOutputSpeechObject (text : Option String) (ssml : Bool) : OutputSpeech :=
  if !ssml then
    { type := "PlainText", text := text, ssml := none }
  else
    { type := "SSML", text := none, ssml := text }

/-- Creates the card object with default card type: when a card is supplied
without a type, the source writes card.type = Simple on the card object itself
and returns it; the returned card is the final state of the supplied card. -/
def createCardObject : Option Card → Option Card
  | none => none
  | some card =>
    if card.type.isNone then some { card with type := some "Simple" } else some card

/-- Reads options.end and returns the bool indicating whether to end the
session, defaulting to true when the property is undefined. -/
def getShouldEndSession (options : RespOptions) : Bool :=
  match options.endSession with
  | none => true
  | some b => b

/-- Builds the protocol response from the response options, the normalized
slots, the current attributes and the app. The source mutates the supplied
options object (its attrs property gets previousIntent overwritten, its card
property gets a default type); the mutation is modelled by returning, next to
the response, the final state of the options argument. -/
def createResponse (options : OptionsVal) (slots : SlotsMap) (attrs : Attrs)
    (app : App) : Response × OptionsVal :=
  let opts : RespOptions :=
    match options with
    | .str s =>
      { text := some s, ssml := false, attrs := none, endSession := none,
        reprompt := none, card := none }
    | .obj o => o
  let outputSpeech := createOutputSpeechObject opts.text opts.ssml
  let sessionAttributes : Attrs :=
    match opts.attrs with
    | some oa => { oa with previousIntent := attrs.previousIntent }
    | none => attrs
  let card := createCardObject opts.card
  let resp : Response :=
    { version := match app.options with
        | some o => o.version
        | none => some "0.0.1",
      sessionAttributes := sessionAttributes,
      outputSpeech := outputSpeech,
      shouldEndSession := getShouldEndSession opts,
      reprompt := opts.reprompt.map (fun r => createOutputSpeechObject (some r) opts.ssml),
      card := card }
  let finalOptions : OptionsVal :=
    match options with
    | .str s => .str s
    | .obj o =>
      .obj { o with
              attrs := o.attrs.map (fun oa => { oa with previousIntent := attrs.previousIntent }),
              card := card }
  (resp, finalOptions)

/-- Observable effect of one handler invocation: which handler function was
called, the normalized slots it received, the attributes at call time, and the
response eventually passed to the done callback. -/
structure Outcome where
  invokedHandler : Handler
  handlerSlots : SlotsMap
  attrsAtCall : Attrs
  response : Response

/-- Calls a handler: normalizes the slots, then either uses the return value
directly (declared arity below 3, the synchronous convention) or hands the
handler the optionsReady completion callback as its final argument (arity 3 or
more, the asynchronous convention); either way the resulting options value is
synthesized into the response delivered to done. -/
def callHandler (handler : Handler) (slots : Option (List Slot)) (attrs : Attrs)
    (app : App) (data : RequestData) : Outcome :=
  let slotsMap := transformSlots slots
  let optionsReady := fun (options : OptionsVal) => (createResponse options slotsMap attrs app).1
  let response :=
    if handler.arity < 3 then
      optionsReady (handler.runSync slotsMap attrs data)
    else
      optionsReady (handler.runAsync slotsMap attrs data)
  { invokedHandler := handler, handlerSlots := slotsMap, attrsAtCall := attrs,
    response := response }

/-- Evaluates the optional if predicate of an action on the raw slots and the
attributes, treating an absent predicate as true, as the conditional
action.if ? action.if(slots, attrs) : true does. -/
def evalIf (a : Action) (slots : Option (List Slot)) (attrs : Attrs) : Bool :=
  match a.cond with
  | some p => p slots attrs
  | none => true

/-- Ordered three-tier action lookup from checkActionsAndHandle: first an exact
from/to match, then a wildcard target, then a wildcard source, each via a
first-match scan of the action list in declaration order. A previousIntent that
is absent (undefined) matches no declared from string. -/
def findAction (actions : List Action) (prev : Option String) (toName : String) :
    Option Action :=
  match actions.find? (fun a => prev == some a.fromName && a.toName == toName) with
  | some a => some a
  | none =>
    match actions.find? (fun a => prev == some a.fromName && a.toName == "*") with
    | some a => some a
    | none => actions.find? (fun a => a.fromName == "*" && a.toName == toName)

/-- Checks for actions presence: with no actions the intent handler runs
directly and previousIntent is updated; with actions, the found action's if
predicate decides between running the intent handler (updating previousIntent)
and a fallback (the action's fail handler, else the default), leaving
previousIntent untouched; no action found also falls back to the default. -/
def checkActionsAndHandle (intent : Intent) (slots : Option (List Slot))
    (attrs : Attrs) (app : App) (handlers : Handlers) (data : RequestData) :
    Outcome :=
  if app.actions.length = 0 then
    callHandler intent.handler slots { attrs with previousIntent := some intent.name } app data
  else
    match findAction app.actions attrs.previousIntent intent.name with
    | some action =>
      if evalIf action slots attrs then
        callHandler intent.handler slots { attrs with previousIntent := some intent.name } app data
      else
        match action.fail with
        | some f => callHandler f slots attrs app data
        | none => callHandler handlers.defaultActionFail slots attrs app data
    | none => callHandler handlers.defaultActionFail slots attrs app data

/-- One of the three validation failures raised by the dispatcher. -/
inductive ValidationFailure where
  | invalidApplicationId (appId : String)
  | nonexistentIntent (name : String)
  | unsupportedRequest (requestType : String)
deriving Repr, DecidableEq

/-- Modelled from the spec: the error-handler collaborator (error-handler.js,
not under src) converts a generic validation failure into a protocol-shaped
error value, consumed here as a pure conversion applied to every validation
failure before it is thrown. -/
structure ProtocolError where
  failure : ValidationFailure
deriving Repr, DecidableEq

/-- Modelled from the spec: parseError wraps the generic failure as the
protocol error value the dispatcher throws. -/
def parseError (e : ValidationFailure) : ProtocolError :=
  { failure := e }

/-- Error result of a dispatch: a thrown protocol error from one of the three
validations, or the native TypeError JS raises when an IntentRequest arrives
without a request.intent object. -/
inductive DispatchError where
  | thrown (e : ProtocolError)
  | nativeTypeError
deriving Repr, DecidableEq

/-- Application identity check from the top of the dispatcher: options is
present, options.ids is present and non-empty, and the ids list does not
contain the request application id. -/
def appIdInvalid (app : App) (appId : String) : Bool :=
  match app.options with
  | some o =>
    match o.ids with
    | some ids => ids.length > 0 && !(ids.contains appId)
    | none => false
  | none => false

/-- Session attribute bootstrap: a new session resets the attributes to the
object holding only previousIntent @start, discarding anything on the wire;
otherwise absent attributes become the empty object and present attributes are
used as-is. -/
def bootstrapAttributes (session : Session) : Attrs :=
  if session.isNew then
    { previousIntent := some "@start", other := [] }
  else
    match session.attributes with
    | none => { previousIntent := none, other := [] }
    | some a => a

/-- The dispatcher, module.exports of handle-request.js: validates the
application id, bootstraps the session attributes, and switches on the request
type, throwing (error result) on an unknown intent or unsupported type. An ok
result carries the observable outcome: the handler that ran and the response
passed to done; an error result models a synchronous throw, so no handler was
invoked and done was never called. -/
def dispatch (app : App) (data : RequestData) (handlers : Handlers) :
    Except DispatchError Outcome :=
  let appId := data.session.applicationId
  if appIdInvalid app appId then
    .error (.thrown (parseError (.invalidApplicationId appId)))
  else
    let attrs := bootstrapAttributes data.session
    match data.requestType with
    | "LaunchRequest" => .ok (callHandler handlers.onStart none attrs app data)
    | "IntentRequest" =>
      match data.intent with
      | none => .error .nativeTypeError
      | some ireq =>
        match app.intents.lookup ireq.name with
        | none => .error (.thrown (parseError (.nonexistentIntent ireq.name)))
        | some intent =>
          .ok (checkActionsAndHandle intent ireq.slots attrs app handlers data)
    | "SessionEndedRequest" => .ok (callHandler handlers.onEnd none attrs app data)
    | t => .error (.thrown (parseError (.unsupportedRequest t)))

/-- Specification-side selection, written from the wording of the spec alone:
for each tier in turn, take the first action in declaration order satisfying
the tier (exact match, then wildcard target, then wildcard source), expressed
as the head of the list filtered by the tier predicate. Used only to compare
against findAction, which is translated from the source. -/
def specThreeTierSelect (actions : List Action) (prev : Option String)
    (toName : String) : Option Action :=
  match (actions.filter (fun a => prev == some a.fromName && a.toName == toName)).head? with
  | some a => some a
  | none =>
    match (actions.filter (fun a => prev == some a.fromName && a.toName == "*")).head? with
    | some a => some a
    | none => (actions.filter (fun a => a.fromName == "*" && a.toName == toName)).head?

/-- Attributes object with no properties at all. -/
def emptyAttrs : Attrs :=
  { previousIntent := none, other := [] }

/-- Stub handler used as a concrete fixture: synchronous arity, distinct
speech text per convention so the chosen branch is observable. -/
def mkHandler (arity : Nat) (syncText asyncText : String) : Handler :=
  { arity := arity,
    runSync := fun _ _ _ => .str syncText,
    runAsync := fun _ _ _ => .str asyncText }

/-- Concrete handlers bundle for witnesses. -/
def cHandlers : Handlers :=
  { onStart := mkHandler 2 "start" "start-async",
    onEnd := mkHandler 2 "end" "end-async",
    defaultActionFail := mkHandler 2 "default-fail" "default-fail-async" }

/-- Concrete app with no options, no intents, no actions. -/
def app0 : App :=
  { intents := [], actions := [], options := none }

/-- Concrete app whose options object is present but carries no version. -/
def appOptsNoVersion : App :=
  { intents := [], actions := [], options := some { ids := none, version := none } }

/-- Concrete request fixture for invoking handlers directly. -/
def d0 : RequestData :=
  { session := { isNew := false, attributes := none, applicationId := "app-1" },
    requestType := "IntentRequest",
    intent := none }

/-- Concrete intent fixture named Yes. -/
def cIntentYes : Intent :=
  { name := "Yes", handler := mkHandler 2 "yes-ran" "yes-ran-async" }

/-- Concrete action whose if predicate always rejects and which has no fail
handler, so the default fallback must run. -/
def cActionRejectNoFail : Action :=
  { fromName := "@start", toName := "Yes",
    cond := some (fun _ _ => false), fail := none }

/-- Concrete app holding the Yes intent and the always-rejecting action. -/
def cAppReject : App :=
  { intents := [("Yes", cIntentYes)], actions := [cActionRejectNoFail], options := none }

/-- Concrete action guarded by a predicate over the raw slot sequence: it
accepts exactly when the raw sequence has two entries. -/
def cActionRawLen : Action :=
  { fromName := "@start", toName := "Yes",
    cond := some (fun slots _ => match slots with
      | some ss => ss.length == 2
      | none => false),
    fail := none }

/-- Concrete app holding the Yes intent and the raw-slot-counting action. -/
def cAppRawLen : App :=
  { intents := [("Yes", cIntentYes)], actions := [cActionRawLen], options := none }

/-- Attributes positioned at the conversation start. -/
def cAttrsStart : Attrs :=
  { previousIntent := some "@start", other := [] }

/-- Raw slot sequence with a duplicated name, so its normalized view collapses
to a single key and the two views differ in shape. -/
def cDupSlots : List Slot :=
  [{ name := "a", value := "1" }, { name := "a", value := "2" }]

/-- Concrete app whose options whitelist two application ids. -/
def cAppWithIds : App :=
  { intents := [],
    actions := [],
    options := some { ids := some ["good-id", "other-id"], version := some "1.0.0" } }

/-- Request carrying an application id outside the whitelist. -/
def cDataBadAppId : RequestData :=
  { session := { isNew := true, attributes := none, applicationId := "bad-id" },
    requestType := "LaunchRequest",
    intent := none }

/-- IntentRequest naming an intent the app does not declare. -/
def cDataUnknownIntent : RequestData :=
  { session := { isNew := true, attributes := none, applicationId := "any" },
    requestType := "IntentRequest",
    intent := some { name := "Missing", slots := none } }

/-- Request whose type is none of the three supported values. -/
def cDataBadType : RequestData :=
  { session := { isNew := true, attributes := none, applicationId := "any" },
    requestType := "AudioPlayerRequest",
    intent := none }

/-- Response options fixture that supplies both a fresh attrs object (with its
own previousIntent) and a card without a type: createResponse mutates both. -/
def cOptsMutating : RespOptions :=
  { text := some "hi", ssml := false,
    attrs := some { previousIntent := some "caller-supplied", other := [("k", "v")] },
    endSession := none, reprompt := none,
    card := some { type := none, title := some "T", content := none } }

/-- Response options fixture with no attrs and an already-typed card, a case
in which createResponse leaves the options object unmodified. -/
def cOptsTyped : RespOptions :=
  { text := some "t", ssml := true, attrs := none, endSession := some false,
    reprompt := some "r",
    card := some { type := some "Standard", title := none, content := none } }

/-- Concrete app declaring the Yes intent with no actions (policy disabled). -/
def wAppYes : App :=
  { intents := [("Yes", cIntentYes)], actions := [], options := none }

/-- Fresh-session IntentRequest for Yes. -/
def wDataYes : RequestData :=
  { session := { isNew := true, attributes := none, applicationId := "any" },
    requestType := "IntentRequest",
    intent := some { name := "Yes", slots := none } }

/-- Outcome dispatch produces for wDataYes against wAppYes. -/
def wOutcomeYes : Outcome :=
  checkActionsAndHandle cIntentYes none { previousIntent := some "@start", other := [] }
    wAppYes cHandlers wDataYes

/-- Handler declared with two parameters: the synchronous convention. -/
def hSync2 : Handler := mkHandler 2 "sync" "async"

/-- Handler declared with three parameters: the asynchronous convention. -/
def hAsync3 : Handler := mkHandler 3 "sync" "async"

/-! Helper lemmas shared by several claim proofs. -/

/-- First match of a predicate over a list equals the head of the filtered
list: declaration-order first-match scanning and filter-then-take-first agree. -/
theorem find?_eq_head?_filter {α : Type} (p : α → Bool) (l : List α) :
    l.find? p = (l.filter p).head? := by
  induction l with
  | nil => rfl
  | cons x xs ih =>
    cases h : p x with
    | true => rw [List.find?_cons_of_pos _ h, List.filter_cons_of_pos h, List.head?_cons]
    | false =>
      rw [List.find?_cons_of_neg _ (by simp [h]), List.filter_cons_of_neg (by simp [h]), ih]

/-- Synthesis always reports the previousIntent carried by the attributes at
synthesis time, in both the supplied-attrs and the carried-attrs branch. -/
theorem createResponse_previousIntent (o : OptionsVal) (s : SlotsMap) (a : Attrs)
    (app : App) :
    (createResponse o s a app).1.sessionAttributes.previousIntent = a.previousIntent := by
  cases o with
  | str t => simp [createResponse]
  | obj ro =>
    cases h : ro.attrs with
    | none => simp [createResponse, h]
    | some oa => simp [createResponse, h]

/-- Invoking a handler never changes which attributes are observed: the
response carries the previousIntent of the attributes given to callHandler. -/
theorem callHandler_previousIntent (h : Handler) (slots : Option (List Slot))
    (attrs : Attrs) (app : App) (data : RequestData) :
    (callHandler h slots attrs app data).response.sessionAttributes.previousIntent =
      attrs.previousIntent := by
  unfold callHandler
  by_cases harity : h.arity < 3
  · simp [harity, createResponse_previousIntent]
  · simp [harity, createResponse_previousIntent]

/-- The outcome of callHandler records the invoked handler verbatim. -/
theorem callHandler_invokedHandler (h : Handler) (slots : Option (List Slot))
    (attrs : Attrs) (app : App) (data : RequestData) :
    (callHandler h slots attrs app data).invokedHandler = h := rfl

/-- The outcome of callHandler records the attributes it was given. -/
theorem callHandler_attrsAtCall (h : Handler) (slots : Option (List Slot))
    (attrs : Attrs) (app : App) (data : RequestData) :
    (callHandler h slots attrs app data).attrsAtCall = attrs := rfl

/-- The outcome of callHandler records the normalized slots handed to the
handler. -/
theorem callHandler_handlerSlots (h : Handler) (slots : Option (List Slot))
    (attrs : Attrs) (app : App) (data : RequestData) :
    (callHandler h slots attrs app data).handlerSlots = transformSlots slots := rfl

/-- The previousIntent surfaced by checkActionsAndHandle is either the handled
intent name or the incoming value, never anything else. -/
theorem checkActions_previousIntent_or (intent : Intent) (slots : Option (List Slot))
    (attrs : Attrs) (app : App) (handlers : Handlers) (data : RequestData) :
    (checkActionsAndHandle intent slots attrs app handlers data).response.sessionAttributes.previousIntent
        = some intent.name ∨
    (checkActionsAndHandle intent slots attrs app handlers data).response.sessionAttributes.previousIntent
        = attrs.previousIntent := by
  unfold checkActionsAndHandle
  by_cases hlen : app.actions.length = 0
  · simp [hlen, callHandler_previousIntent]
  · simp only [hlen, if_false]
    cases hfind : findAction app.actions attrs.previousIntent intent.name with
    | none => simp [callHandler_previousIntent]
    | some a =>
      by_cases hif : evalIf a slots attrs
      · simp [hif, callHandler_previousIntent]
      · cases hfail : a.fail with
        | none => simp [hif, hfail, callHandler_previousIntent]
        | some f => simp [hif, hfail, callHandler_previousIntent]

/-! Claim theorems. -/

/-- C2: for every IntentRequest with a known intent and non-empty app.actions,
the transition policy evaluator selects the first matching action by exactly
the three-tier priority (exact from/to match, then wildcard target, then
wildcard source), with ties inside a tier resolved to declaration order: the
source lookup findAction coincides with the specification-side prioritized
search specThreeTierSelect on every action list. -/
theorem findAction_eq_specThreeTierSelect (actions : List Action)
    (prev : Option String) (toName : String) :
    findAction actions prev toName = specThreeTierSelect actions prev toName := by
  unfold findAction specThreeTierSelect
  rw [find?_eq_head?_filter, find?_eq_head?_filter, find?_eq_head?_filter]

/-- C5: session attributes are bootstrapped before dispatch: a new session
resets them to exactly the object holding previousIntent @start, discarding
any incoming attributes; otherwise they become the empty object only when
entirely absent and are used as-is when present. -/
theorem session_attributes_bootstrap (s : Session) :
    (s.isNew = true →
      bootstrapAttributes s = { previousIntent := some "@start", other := [] })
    ∧ (s.isNew = false → s.attributes = none →
      bootstrapAttributes s = { previousIntent := none, other := [] })
    ∧ (∀ a, s.isNew = false → s.attributes = some a → bootstrapAttributes s = a) := by
  refine ⟨?_, ?_, ?_⟩
  · intro h; simp [bootstrapAttributes, h]
  · intro h h2; simp [bootstrapAttributes, h, h2]
  · intro a h h2; simp [bootstrapAttributes, h, h2]

/-- Witness for C5: a new session with stale incoming attributes is reset, an
old session without attributes gets the empty object, and an old session with
attributes keeps them. -/
theorem session_attributes_bootstrap_witness :
    bootstrapAttributes
        { isNew := true,
          attributes := some { previousIntent := some "Old", other := [("x", "y")] },
          applicationId := "a" }
      = { previousIntent := some "@start", other := [] }
    ∧ bootstrapAttributes { isNew := false, attributes := none, applicationId := "a" }
      = { previousIntent := none, other := [] }
    ∧ bootstrapAttributes
        { isNew := false, attributes := some cAttrsStart, applicationId := "a" }
      = cAttrsStart :=
  ⟨(session_attributes_bootstrap _).1 rfl,
   (session_attributes_bootstrap _).2.1 rfl rfl,
   (session_attributes_bootstrap _).2.2 cAttrsStart rfl rfl⟩

/-- C6: when options.attrs is supplied, the synthesized sessionAttributes is
that supplied object with previousIntent overwritten by the previousIntent of
the attributes carried at synthesis time, never the caller-supplied value for
that field; when options.attrs is absent (also in the string shorthand case),
sessionAttributes is the carried attributes object verbatim. -/
theorem response_sessionAttributes_override (o : RespOptions) (s : SlotsMap)
    (a : Attrs) (app : App) :
    (∀ oa, o.attrs = some oa →
      (createResponse (.obj o) s a app).1.sessionAttributes =
        { oa with previousIntent := a.previousIntent })
    ∧ (o.attrs = none → (createResponse (.obj o) s a app).1.sessionAttributes = a)
    ∧ (∀ t, (createResponse (.str t) s a app).1.sessionAttributes = a) := by
  refine ⟨?_, ?_, ?_⟩
  · intro oa h; simp [createResponse, h]
  · intro h; simp [createResponse, h]
  · intro t; simp [createResponse]

/-- Witness for C6: a handler-supplied attrs object whose previousIntent says
caller-supplied surfaces with previousIntent Yes, the value carried at
synthesis time, while the rest of the supplied object is kept. -/
theorem response_sessionAttributes_override_witness :
    (createResponse (.obj cOptsMutating) [] { previousIntent := some "Yes", other := [] }
        app0).1.sessionAttributes
      = { previousIntent := some "Yes", other := [("k", "v")] } :=
  (response_sessionAttributes_override cOptsMutating [] _ app0).1
    { previousIntent := some "caller-supplied", other := [("k", "v")] } rfl

/-- C9 counterexample: with an app whose options object is present but has no
version, the synthesized version is undefined, not the fixed default, so the
claim that version equals 0.0.1 whenever app.options.version is absent fails. -/
theorem response_version_counterexample :
    (createResponse (.str "hi") [] emptyAttrs appOptsNoVersion).1.version ≠ some "0.0.1" := by
  decide

/-- C9 amended: the synthesized version equals app.options.version (which may
itself be undefined) whenever the app.options object is present, and equals
the fixed default 0.0.1 only when app.options is entirely absent. -/
theorem response_version_from_app_options (o : OptionsVal) (s : SlotsMap)
    (a : Attrs) (app : App) :
    (createResponse o s a app).1.version =
      (match app.options with
       | some op => op.version
       | none => some "0.0.1") := by
  cases o <;> rfl

/-- C4: when a found action's if predicate returns false, the pipeline invokes
that action's fail handler if present and handlers.defaultActionFail
otherwise; when no action matches any tier it invokes
handlers.defaultActionFail; in all these fallback cases the attributes are
passed on unchanged and the response still carries the incoming
previousIntent. -/
theorem fallback_handler_selection (intent : Intent) (slots : Option (List Slot))
    (attrs : Attrs) (app : App) (handlers : Handlers) (data : RequestData)
    (hne : app.actions ≠ []) :
    (∀ a, findAction app.actions attrs.previousIntent intent.name = some a →
      evalIf a slots attrs = false →
      (checkActionsAndHandle intent slots attrs app handlers data).invokedHandler
          = (match a.fail with | some f => f | none => handlers.defaultActionFail)
        ∧ (checkActionsAndHandle intent slots attrs app handlers data).attrsAtCall = attrs
        ∧ (checkActionsAndHandle intent slots attrs app handlers
              data).response.sessionAttributes.previousIntent = attrs.previousIntent)
    ∧ (findAction app.actions attrs.previousIntent intent.name = none →
      (checkActionsAndHandle intent slots attrs app handlers data).invokedHandler
          = handlers.defaultActionFail
        ∧ (checkActionsAndHandle intent slots attrs app handlers data).attrsAtCall = attrs
        ∧ (checkActionsAndHandle intent slots attrs app handlers
              data).response.sessionAttributes.previousIntent = attrs.previousIntent) := by
  have hlen : ¬ app.actions.length = 0 := by
    simpa [List.length_eq_zero] using hne
  constructor
  · intro a hfind hif
    unfold checkActionsAndHandle
    rw [if_neg hlen, hfind]
    cases hfail : a.fail with
    | none =>
      simp [hif, hfail, callHandler_invokedHandler, callHandler_attrsAtCall,
        callHandler_previousIntent]
    | some f =>
      simp [hif, hfail, callHandler_invokedHandler, callHandler_attrsAtCall,
        callHandler_previousIntent]
  · intro hfind
    unfold checkActionsAndHandle
    rw [if_neg hlen, hfind]
    simp [callHandler_invokedHandler, callHandler_attrsAtCall, callHandler_previousIntent]

/-- Witness for C4: from previousIntent @start, requesting Yes against an
always-rejecting action without a fail handler runs the default fallback and
leaves previousIntent at @start. -/
theorem fallback_handler_selection_witness :
    (checkActionsAndHandle cIntentYes none cAttrsStart cAppReject cHandlers d0).invokedHandler
        = cHandlers.defaultActionFail
      ∧ (checkActionsAndHandle cIntentYes none cAttrsStart cAppReject cHandlers d0).attrsAtCall
        = cAttrsStart
      ∧ (checkActionsAndHandle cIntentYes none cAttrsStart cAppReject cHandlers
            d0).response.sessionAttributes.previousIntent = cAttrsStart.previousIntent := by
  have h := (fallback_handler_selection cIntentYes none cAttrsStart cAppReject cHandlers d0
      (List.cons_ne_nil cActionRejectNoFail [])).1 cActionRejectNoFail rfl rfl
  exact ⟨h.1, h.2.1, h.2.2⟩

/-- C7: a handler declared with fewer than 3 parameters is called under the
synchronous convention and its return value is directly the response options;
a handler declared with 3 or more parameters is called under the asynchronous
convention and the options value it passes to the completion callback it
receives as final argument is what gets synthesized. -/
theorem handler_arity_calling_convention (h : Handler) (slots : Option (List Slot))
    (attrs : Attrs) (app : App) (data : RequestData) :
    (h.arity < 3 →
      (callHandler h slots attrs app data).response
        = (createResponse (h.runSync (transformSlots slots) attrs data)
            (transformSlots slots) attrs app).1)
    ∧ (3 ≤ h.arity →
      (callHandler h slots attrs app data).response
        = (createResponse (h.runAsync (transformSlots slots) attrs data)
            (transformSlots slots) attrs app).1) := by
  constructor
  · intro hlt
    simp [callHandler, hlt]
  · intro hge
    have h3 : ¬ h.arity < 3 := Nat.not_lt.mpr hge
    simp [callHandler, h3]

/-- Witness for C7: a two-parameter handler takes the synchronous path, a
three-parameter handler takes the asynchronous path. -/
theorem handler_arity_calling_convention_witness :
    (callHandler hSync2 none emptyAttrs app0 d0).response
        = (createResponse (hSync2.runSync (transformSlots none) emptyAttrs d0)
            (transformSlots none) emptyAttrs app0).1
      ∧ (callHandler hAsync3 none emptyAttrs app0 d0).response
        = (createResponse (hAsync3.runAsync (transformSlots none) emptyAttrs d0)
            (transformSlots none) emptyAttrs app0).1 :=
  ⟨(handler_arity_calling_convention hSync2 none emptyAttrs app0 d0).1 (by decide),
   (handler_arity_calling_convention hAsync3 none emptyAttrs app0 d0).2 (by decide)⟩

/-- C8 counterexample: synthesis is not free of side effects on its inputs: at
a concrete input whose options carry a fresh attrs object and an untyped card,
the final state of the options object differs from the supplied one (its
attrs.previousIntent has been overwritten and its card.type defaulted). -/
theorem createResponse_mutates_options_counterexample :
    (createResponse (.obj cOptsMutating) [] { previousIntent := some "Yes", other := [] }
        app0).2 ≠ .obj cOptsMutating := by
  decide

/-- C8 amended: the synthesized response is a function of the inputs alone and
the carried attributes object is never written, but the options object is
mutated when it supplies attrs (previousIntent force-copied onto it) or an
untyped card (type defaulted); in every other case, in particular for the
string shorthand or when options has no attrs and its card, if any, already
has a type, the options object is left unmodified. -/
theorem createResponse_unmodified_without_attrs_card (o : RespOptions) (s : SlotsMap)
    (a : Attrs) (app : App) :
    (∀ t, (createResponse (.str t) s a app).2 = .str t)
    ∧ (o.attrs = none → (∀ c, o.card = some c → c.type.isSome = true) →
       (createResponse (.obj o) s a app).2 = .obj o) := by
  constructor
  · intro t; rfl
  · intro hattrs hcard
    have hcardEq : createCardObject o.card = o.card := by
      cases hc : o.card with
      | none => rfl
      | some c =>
        have := hcard c hc
        simp [createCardObject, Option.isNone_iff_eq_none]
        intro habs
        rw [habs] at this
        simp at this
    simp [createResponse, hattrs, hcardEq]
    rw [← hattrs]

/-- Witness for C8 amended: a string options value and an options object with
no attrs and an already-typed card pass through synthesis unmodified. -/
theorem createResponse_unmodified_witness :
    (createResponse (.str "plain") [] emptyAttrs app0).2 = .str "plain"
      ∧ (createResponse (.obj cOptsTyped) [] emptyAttrs app0).2 = .obj cOptsTyped :=
  ⟨(createResponse_unmodified_without_attrs_card cOptsTyped [] emptyAttrs app0).1 "plain",
   (createResponse_unmodified_without_attrs_card cOptsTyped [] emptyAttrs app0).2 rfl
     (fun c hc => by rw [← Option.some.inj hc]; rfl)⟩

/-- C10: inside the transition policy evaluation, a found action's if
predicate is evaluated on the raw incoming slot sequence (evalIf consumes the
optional ordered Slot list), while the handler that ends up selected receives
the normalized name-to-value mapping transformSlots slots; the two views have
different shapes for the same request. -/
theorem if_predicate_raw_slots_handler_normalized (intent : Intent)
    (slots : Option (List Slot)) (attrs : Attrs) (app : App) (handlers : Handlers)
    (data : RequestData) (a : Action) (hne : app.actions ≠ [])
    (hfind : findAction app.actions attrs.previousIntent intent.name = some a) :
    (checkActionsAndHandle intent slots attrs app handlers data).handlerSlots
        = transformSlots slots
      ∧ (evalIf a slots attrs = true →
        (checkActionsAndHandle intent slots attrs app handlers data).invokedHandler
          = intent.handler)
      ∧ (evalIf a slots attrs = false →
        (checkActionsAndHandle intent slots attrs app handlers data).invokedHandler
          = (match a.fail with | some f => f | none => handlers.defaultActionFail)) := by
  have hlen : ¬ app.actions.length = 0 := by
    simpa [List.length_eq_zero] using hne
  refine ⟨?_, ?_, ?_⟩
  · unfold checkActionsAndHandle
    rw [if_neg hlen, hfind]
    by_cases hif : evalIf a slots attrs = true
    · simp [hif, callHandler_handlerSlots]
    · cases hfail : a.fail with
      | none => simp [hif, hfail, callHandler_handlerSlots]
      | some f => simp [hif, hfail, callHandler_handlerSlots]
  · intro hif
    unfold checkActionsAndHandle
    rw [if_neg hlen, hfind]
    simp [hif, callHandler_invokedHandler]
  · intro hif
    unfold checkActionsAndHandle
    rw [if_neg hlen, hfind]
    cases hfail : a.fail with
    | none => simp [hif, hfail, callHandler_invokedHandler]
    | some f => simp [hif, hfail, callHandler_invokedHandler]

/-- Witness for C10: a raw sequence with a duplicated slot name has length
two, its normalized view collapses to one key with the last write winning, the
raw-slot-counting predicate accepts it, and the intent handler receives the
collapsed mapping. -/
theorem if_predicate_raw_slots_witness :
    cDupSlots.length = 2
      ∧ transformSlots (some cDupSlots) = [("a", "2")]
      ∧ (checkActionsAndHandle cIntentYes (some cDupSlots) cAttrsStart cAppRawLen cHandlers
            d0).handlerSlots = [("a", "2")]
      ∧ (checkActionsAndHandle cIntentYes (some cDupSlots) cAttrsStart cAppRawLen cHandlers
            d0).invokedHandler = cIntentYes.handler := by
  have h := if_predicate_raw_slots_handler_normalized cIntentYes (some cDupSlots) cAttrsStart
    cAppRawLen cHandlers d0 cActionRawLen (List.cons_ne_nil cActionRawLen []) rfl
  exact ⟨by decide, by decide, h.1, h.2.1 rfl⟩

/-- C1: in the synthesized response of a dispatched request,
sessionAttributes.previousIntent reflects the last intent whose handler
actually ran: over the policy evaluator it equals the intent name exactly in
the paths where the intent handler is selected (policy disabled, or a matching
action whose if predicate holds) and stays at the incoming value on every
fallback path; and over the dispatcher, a fresh session surfaces either
@start or the name of the intent whose handler ran. -/
theorem previousIntent_reflects_executed_handler (intent : Intent)
    (slots : Option (List Slot)) (attrs : Attrs) (app : App) (handlers : Handlers)
    (data : RequestData) :
    ((checkActionsAndHandle intent slots attrs app handlers
          data).response.sessionAttributes.previousIntent
      = (match app.actions, findAction app.actions attrs.previousIntent intent.name with
         | [], _ => some intent.name
         | _ :: _, some a =>
           if evalIf a slots attrs then some intent.name else attrs.previousIntent
         | _ :: _, none => attrs.previousIntent))
    ∧ (∀ (dApp : App) (dData : RequestData) (dHandlers : Handlers) (outcome : Outcome),
        dispatch dApp dData dHandlers = Except.ok outcome →
        dData.session.isNew = true →
        outcome.response.sessionAttributes.previousIntent = some "@start"
        ∨ ∃ ireq i, dData.intent = some ireq
            ∧ dApp.intents.lookup ireq.name = some i
            ∧ outcome.response.sessionAttributes.previousIntent = some i.name) := by
  constructor
  · unfold checkActionsAndHandle
    cases happ : app.actions with
    | nil => simp [callHandler_previousIntent]
    | cons x xs =>
      have hlen : ¬ (x :: xs : List Action).length = 0 := by simp
      rw [if_neg hlen]
      cases hfind : findAction (x :: xs) attrs.previousIntent intent.name with
      | none => simp [callHandler_previousIntent]
      | some a =>
        by_cases hif : evalIf a slots attrs = true
        · simp [hif, callHandler_previousIntent]
        · cases hfail : a.fail with
          | none => simp [hif, hfail, callHandler_previousIntent]
          | some f => simp [hif, hfail, callHandler_previousIntent]
  · intro dApp dData dHandlers outcome hok hnew
    have hattrs : bootstrapAttributes dData.session
        = { previousIntent := some "@start", other := [] } := by
      simp [bootstrapAttributes, hnew]
    unfold dispatch at hok
    by_cases hid : appIdInvalid dApp dData.session.applicationId = true
    · rw [if_pos hid] at hok
      exact absurd hok (by simp)
    · rw [if_neg hid] at hok
      split at hok
      · -- LaunchRequest
        injection hok with h
        subst h
        left
        rw [callHandler_previousIntent, hattrs]
      · -- IntentRequest
        split at hok
        · exact absurd hok (by simp)
        · rename_i ireq hireq
          split at hok
          · exact absurd hok (by simp)
          · rename_i i hlookup
            injection hok with h
            subst h
            rcases checkActions_previousIntent_or i ireq.slots (bootstrapAttributes dData.session)
                dApp dHandlers dData with hpi | hpi
            · right
              exact ⟨ireq, i, hireq, hlookup, hpi⟩
            · left
              rw [hpi, hattrs]
      · -- SessionEndedRequest
        injection hok with h
        subst h
        left
        rw [callHandler_previousIntent, hattrs]
      · -- unsupported type
        exact absurd hok (by simp)

/-- Witness for C1: with the always-rejecting action the fallback runs and
previousIntent stays at @start; and dispatching a fresh-session IntentRequest
for Yes against an app with no actions yields an outcome whose previousIntent
is @start or the name of the intent whose handler ran. -/
theorem previousIntent_reflects_executed_handler_witness :
    ((checkActionsAndHandle cIntentYes none cAttrsStart cAppReject cHandlers
          d0).response.sessionAttributes.previousIntent
      = (match cAppReject.actions,
             findAction cAppReject.actions cAttrsStart.previousIntent cIntentYes.name with
         | [], _ => some cIntentYes.name
         | _ :: _, some a =>
           if evalIf a none cAttrsStart then some cIntentYes.name
           else cAttrsStart.previousIntent
         | _ :: _, none => cAttrsStart.previousIntent))
    ∧ (wOutcomeYes.response.sessionAttributes.previousIntent = some "@start"
       ∨ ∃ ireq i, wDataYes.intent = some ireq
           ∧ wAppYes.intents.lookup ireq.name = some i
           ∧ wOutcomeYes.response.sessionAttributes.previousIntent = some i.name) :=
  ⟨(previousIntent_reflects_executed_handler cIntentYes none cAttrsStart cAppReject
      cHandlers d0).1,
   (previousIntent_reflects_executed_handler cIntentYes none cAttrsStart cAppReject
      cHandlers d0).2 wAppYes wDataYes cHandlers wOutcomeYes rfl rfl⟩

/-- C3: each of the three validation failures makes dispatch throw the
parseError-converted error synchronously: the result is the thrown protocol
error, so no handler is invoked and done is never called (an error result of
the embedding carries no outcome at all). The failures are: a non-empty
app.options.ids not containing the application id; an IntentRequest naming an
intent absent from app.intents; a request type other than LaunchRequest,
IntentRequest and SessionEndedRequest. -/
theorem dispatch_validation_failures_throw (app : App) (data : RequestData)
    (handlers : Handlers) :
    (∀ opts ids, app.options = some opts → opts.ids = some ids → ids ≠ [] →
      ids.contains data.session.applicationId = false →
      dispatch app data handlers
        = .error (.thrown (parseError (.invalidApplicationId data.session.applicationId))))
    ∧ (appIdInvalid app data.session.applicationId = false →
      data.requestType = "IntentRequest" →
      ∀ ireq, data.intent = some ireq → app.intents.lookup ireq.name = none →
      dispatch app data handlers
        = .error (.thrown (parseError (.nonexistentIntent ireq.name))))
    ∧ (appIdInvalid app data.session.applicationId = false →
      data.requestType ≠ "LaunchRequest" → data.requestType ≠ "IntentRequest" →
      data.requestType ≠ "SessionEndedRequest" →
      dispatch app data handlers
        = .error (.thrown (parseError (.unsupportedRequest data.requestType)))) := by
  refine ⟨?_, ?_, ?_⟩
  · intro opts ids hopts hids hne hcontains
    have hid : appIdInvalid app data.session.applicationId = true := by
      simp only [appIdInvalid, hopts, hids]
      rw [hcontains]
      simp [List.length_pos, hne]
    unfold dispatch
    rw [if_pos hid]
  · intro hvalid htype ireq hintent hlookup
    unfold dispatch
    rw [if_neg (by simp [hvalid])]
    split
    · rename_i heq
      rw [htype] at heq
      exact absurd heq (by decide)
    · split
      · rename_i heq
        rw [hintent] at heq
        exact absurd heq (by simp)
      · rename_i ireq2 heq
        rw [hintent] at heq
        cases Option.some.inj heq
        split
        · rfl
        · rename_i i hlk
          rw [hlookup] at hlk
          exact absurd hlk (by simp)
    · rename_i heq
      rw [htype] at heq
      exact absurd heq (by decide)
    · rename_i hA hB hC
      exact absurd htype hB
  · intro hvalid h1 h2 h3
    unfold dispatch
    rw [if_neg (by simp [hvalid])]
    split
    · rename_i heq; exact absurd heq h1
    · rename_i heq; exact absurd heq h2
    · rename_i heq; exact absurd heq h3
    · rfl

/-- Witness for C3: a whitelisted app rejects a foreign application id, an app
without options rejects an unknown intent name, and an unsupported request
type is refused; in each case dispatch returns the thrown error. -/
theorem dispatch_validation_failures_throw_witness :
    dispatch cAppWithIds cDataBadAppId cHandlers
        = .error (.thrown (parseError (.invalidApplicationId "bad-id")))
      ∧ dispatch app0 cDataUnknownIntent cHandlers
        = .error (.thrown (parseError (.nonexistentIntent "Missing")))
      ∧ dispatch app0 cDataBadType cHandlers
        = .error (.thrown (parseError (.unsupportedRequest "AudioPlayerRequest"))) :=
  ⟨(dispatch_validation_failures_throw cAppWithIds cDataBadAppId cHandlers).1
      { ids := some ["good-id", "other-id"], version := some "1.0.0" }
      ["good-id", "other-id"] rfl rfl (by decide) (by decide),
   (dispatch_validation_failures_throw app0 cDataUnknownIntent cHandlers).2.1
      rfl rfl { name := "Missing", slots := none } rfl rfl,
   (dispatch_validation_failures_throw app0 cDataBadType cHandlers).2.2
      rfl (by decide) (by decide) (by decide)⟩

end Alexia
